import Mathlib

/-!
Verification of the ParallelStreams library: shallow embedding of
`src/Buffer.hpp` and `src/marked_iostream.hpp` (Buffer with mark cursor,
BufferPool, BufferFifo, and the marked stream endpoints), with theorems
settling the stated claims about cursor invariants, the framing guarantee,
error handling, and the FIFO bookkeeping.
-/

namespace ParallelStreams

/-! ## Cursor-level model of `Buffer` (Buffer.hpp:27-263)

Offsets are the pointer differences the C++ computes (`_gptr - _buf`,
`_pptr - _buf`) as signed integers; byte contents are irrelevant to the
cursor claims, so this model carries only the four `Size` quantities. -/

structure Buffer where
  getp : ℤ
  putp : ℤ
  mark : ℤ
  cap : ℤ
deriving DecidableEq, Repr

namespace Buffer

/-- `Buffer::validate` (Buffer.hpp:247-250); note it does not constrain `_gptr`. -/
def validate (b : Buffer) : Bool :=
  (b.cap ≥ b.mark) && (b.cap ≥ b.putp) && (b.putp ≥ 0) && (b.mark ≥ 0) && (b.putp ≥ b.mark)

/-- `Buffer::gvalidate` (Buffer.hpp:251-253). -/
def gvalidate (b : Buffer) : Bool :=
  (b.getp ≥ 0) && (b.getp ≤ b.cap) && (b.putp - b.getp ≥ 0)

/-- `Buffer::pvalidate` (Buffer.hpp:254-256). -/
def pvalidate (b : Buffer) : Bool :=
  (b.putp ≥ 0) && (b.putp ≤ b.cap)

/-- The cursor invariant of spec section 8: `0 ≤ get ≤ put ≤ capacity` and
`0 ≤ mark ≤ put`. -/
def Invariant (b : Buffer) : Prop :=
  0 ≤ b.getp ∧ b.getp ≤ b.putp ∧ b.putp ≤ b.cap ∧ 0 ≤ b.mark ∧ b.mark ≤ b.putp

instance (b : Buffer) : Decidable b.Invariant := by
  unfold Invariant; infer_instance

/-- `Buffer::premainder` (Buffer.hpp:166-169). -/
def premainder (b : Buffer) : ℤ := b.cap - b.putp

/-- `Buffer::gremainder` (Buffer.hpp:170-172). -/
def gremainder (b : Buffer) : ℤ := b.putp - b.getp

/-- Cursor effect of `Buffer::write` (Buffer.hpp:73-85): advances `put` by
`min(len, premainder)` (the memcpy itself does not move cursors). -/
def write (b : Buffer) (len : ℤ) : Buffer :=
  {b with putp := b.putp + min len b.premainder}

/-- Cursor effect of `Buffer::read` (Buffer.hpp:88-94): advances `get` by
`min(len, gremainder)`. -/
def read (b : Buffer) (len : ℤ) : Buffer :=
  {b with getp := b.getp + min len b.gremainder}

/-- `Buffer::setMark` (Buffer.hpp:98-105): `mark ← put`; returns the number of
bytes since the previous mark. -/
def setMark (b : Buffer) : ℤ × Buffer :=
  (b.putp - b.mark, {b with mark := b.putp})

/-- `Buffer::clear` (Buffer.hpp:41-48): `get ← 0`, `put ← mark`, `mark ← mark`. -/
def clear (b : Buffer) (m : ℤ) : Buffer :=
  {b with getp := 0, putp := m, mark := m}

/-- `Buffer::resize` (Buffer.hpp:55-70): no-op when the new size equals the
capacity, refused when `get` or `put` would not fit strictly, otherwise only
the capacity changes (realloc preserves the prefix). -/
def resize (b : Buffer) (n : ℤ) : Buffer :=
  if n = b.cap then b
  else if b.getp ≥ n ∨ b.putp ≥ n then b
  else {b with cap := n}

/-- `Buffer::gbump` (Buffer.hpp:187-194); `none` models the `throw` on a
failed `gvalidate`. -/
def gbump (b : Buffer) (k : ℤ) : Option Buffer :=
  let b' := {b with getp := b.getp + k}
  if b'.gvalidate then some b' else none

/-- `Buffer::pbump` (Buffer.hpp:195-202); `none` models the `throw` on a
failed `pvalidate`. -/
def pbump (b : Buffer) (k : ℤ) : Option Buffer :=
  let b' := {b with putp := b.putp + k}
  if b'.pvalidate then some b' else none

/-- `Buffer::swap` (Buffer.hpp:216-222): exchanges the entire state. -/
def swap (b c : Buffer) : Buffer × Buffer := (c, b)

end Buffer

/-! ## Reader/writer census of `BufferFifo` (Buffer.hpp:521-544) -/

structure Census where
  totalReaders : ℤ
  closedReaders : ℤ
  totalWriters : ℤ
  closedWriters : ℤ
deriving DecidableEq, Repr

namespace Census

/-- `BufferFifo::registerReader` (Buffer.hpp:521-523): `return ++_closedReaders;`
(sic — it increments the closed-reader counter). -/
def registerReader (c : Census) : Census :=
  {c with closedReaders := c.closedReaders + 1}

/-- `BufferFifo::deregisterReader` (Buffer.hpp:524-526): `return ++_totalReaders;`
(sic — it increments the total-reader counter). -/
def deregisterReader (c : Census) : Census :=
  {c with totalReaders := c.totalReaders + 1}

/-- `BufferFifo::registerWriter` (Buffer.hpp:527-529). -/
def registerWriter (c : Census) : Census :=
  {c with totalWriters := c.totalWriters + 1}

/-- `BufferFifo::deregisterWriter` (Buffer.hpp:530-532). -/
def deregisterWriter (c : Census) : Census :=
  {c with closedWriters := c.closedWriters + 1}

/-- `BufferFifo::getActiveReaderCount` (Buffer.hpp:542-544). -/
def getActiveReaderCount (c : Census) : ℤ :=
  c.totalReaders - c.closedReaders

/-- `BufferFifo::getActiveWriterCount` (Buffer.hpp:536-538). -/
def getActiveWriterCount (c : Census) : ℤ :=
  c.totalWriters - c.closedWriters

/-- Counter state of a freshly constructed `BufferFifo` (Buffer.hpp:388-393). -/
def start : Census := ⟨0, 0, 0, 0⟩

end Census

/-! ## Adaptive backpressure wait of `BufferFifo` (Buffer.hpp:465-482) -/

structure FifoWait where
  isEOF : Bool
  allocCount : ℤ
  deallocCount : ℤ
  initialPoolCapacity : ℤ
  warningThreshold : ℤ
deriving DecidableEq, Repr

namespace FifoWait

/-- `BufferPool::getOutstanding` as surfaced by `BufferFifo::getOutstanding`
(Buffer.hpp:352, 465-468). -/
def getOutstanding (f : FifoWait) : ℤ := f.allocCount - f.deallocCount

/-- `BufferFifo::getWaitForBuffer` (Buffer.hpp:470-482): the formula is
computed in `double` and assigned to `long wait_us`, which truncates the
quotient toward zero; both `10·outstanding³` and `capacity³` are integers
(exactly representable in `double` for the pool-sized counts involved), so
the assigned value is the exact quotient truncated toward zero, `Int.tdiv`.
The second component is the updated warning threshold. -/
def getWaitForBuffer (f : FifoWait) : ℤ × FifoWait :=
  if f.isEOF = false ∧ f.getOutstanding > f.initialPoolCapacity then
    let f' := if f.getOutstanding > f.warningThreshold * f.initialPoolCapacity
      then {f with warningThreshold := 2 * f.warningThreshold} else f
    (Int.tdiv (10 * f.getOutstanding ^ 3) (f.initialPoolCapacity ^ 3), f')
  else (0, f)

end FifoWait

/-! ## `setBufferSize` (Buffer.hpp:343-348 and 496-503) -/

namespace BufferPool

/-- Sequential effect of the compare-exchange loop in
`BufferPool::setBufferSize` (Buffer.hpp:343-348): smaller values are ignored. -/
def setBufferSize (oldSize newSize : ℤ) : ℤ :=
  if oldSize < newSize then newSize else oldSize

end BufferPool

namespace BufferFifo

/-- `(newsize + 63) & ~((Size)63)` (Buffer.hpp:497): clears the low six bits,
i.e. subtracts the remainder of `newsize + 63` modulo 64. -/
def roundUp64 (n : ℤ) : ℤ := (n + 63) - (n + 63) % 64

/-- `BufferFifo::setBufferSize` (Buffer.hpp:496-503): rounds up to a multiple
of 64, then applies the pool update; the Bool records the large-size warning. -/
def setBufferSize (initialBufferSize oldSize newsize : ℤ) : Bool × ℤ :=
  let newSizeCeil := roundUp64 newsize
  (decide (newSizeCeil > 128 * initialBufferSize),
    BufferPool.setBufferSize oldSize newSizeCeil)

end BufferFifo

/-! ## Content-level model of the marked stream endpoints
(marked_iostream.hpp:19-236)

Here a buffer carries its byte contents: `data` is the written region
`[0, put)`, so `put = data.length`; `cap`, `getp` and `mark` are as in the
source. Capacities stay at the FIFO's buffer size `Cp` throughout a run. -/

namespace Marked

structure Buffer where
  cap : ℕ
  data : List ℕ
  getp : ℕ
  mark : ℕ
deriving DecidableEq, Repr

namespace Buffer

/-- `Buffer::size` = `_pptr - _buf` (Buffer.hpp:183-185). -/
def put (b : Buffer) : ℕ := b.data.length

/-- `Buffer::premainder` (Buffer.hpp:166-169). -/
def premainder (b : Buffer) : ℕ := b.cap - b.put

/-- `Buffer::gremainder` (Buffer.hpp:170-172). -/
def gremainder (b : Buffer) : ℕ := b.put - b.getp

/-- `Buffer::markRemainder` (Buffer.hpp:160-163): bytes past the last mark. -/
def markRemainder (b : Buffer) : ℕ := b.put - b.mark

/-- `Buffer::write(src, len)` with `len = src.length` (Buffer.hpp:73-85):
appends `min(len, premainder)` bytes of `src` at `put`. -/
def write (b : Buffer) (src : List ℕ) : Buffer :=
  {b with data := b.data ++ src.take b.premainder}

/-- The count `Buffer::write` returns (Buffer.hpp:77,84). -/
def writeCount (b : Buffer) (src : List ℕ) : ℕ :=
  min src.length b.premainder

/-- `Buffer::setMark` (Buffer.hpp:98-105). -/
def setMark (b : Buffer) : ℕ × Buffer :=
  (b.put - b.mark, {b with mark := b.put})

/-- `Buffer::clear` (Buffer.hpp:41-48) at the content level: the bytes at and
beyond the new `put = m` become dead. -/
def clear (b : Buffer) (m : ℕ) : Buffer :=
  {b with getp := 0, data := b.data.take m, mark := m}

/-- `Buffer::resize` (Buffer.hpp:55-70) at the content level: realloc keeps
the written prefix and all three offsets. -/
def resize (b : Buffer) (n : ℕ) : Buffer :=
  if n = b.cap then b
  else if b.getp ≥ n ∨ b.put ≥ n then b
  else {b with cap := n}

end Buffer

/-- The buffer handed out by `BufferPool::getBuffer` (Buffer.hpp:291-313):
recycled buffers were cleared by `returnBuffer` (Buffer.hpp:316) and are
resized up to the pool's buffer size before handoff, and fresh allocations are
created at that size, so the endpoint always receives an empty buffer of
capacity `Cp`. -/
def freshBuffer (Cp : ℕ) : Buffer := ⟨Cp, [], 0, 0⟩

/-- Modelled from the spec: `BufferPool::putBuffer` is invoked by the
endpoints (marked_iostream.hpp:45,156) but no definition of it appears under
`src/`; per spec sections 4.4 and 4.5 the buffer is returned to the pool, and
`BufferPool::returnBuffer` (Buffer.hpp:314-341) clears a buffer before
reinserting it, so the model appends the cleared buffer to the pool. -/
def putBuffer (pool : List Buffer) (b : Buffer) : List Buffer :=
  pool ++ [b.clear 0]

/-- State of a write endpoint (`marked_fifo_streambuf` used as a sink):
its in-flight buffer, the FIFO contents it has pushed (oldest first), the
pool contents it has returned, `_prevBytes`, and the `_writeOnly` flag. -/
structure SinkSt where
  buf : Buffer
  fifo : List Buffer
  pool : List Buffer
  prevBytes : ℕ
  writeOnly : Bool
deriving DecidableEq, Repr

/-- A freshly constructed sink (marked_iostream.hpp:26-30). -/
def initSink (Cp : ℕ) : SinkSt := ⟨freshBuffer Cp, [], [], 0, false⟩

/-- `marked_fifo_streambuf::overflow` (marked_iostream.hpp:187-213) with
`c = EOF`, which is how every call site in the repository invokes it: copy the
uncommitted tail into a fresh pool buffer, truncate at the mark, accumulate
`_prevBytes`, push the old buffer, adopt the fresh one. -/
def overflow (Cp : ℕ) (s : SinkSt) : SinkSt :=
  let next := freshBuffer Cp
  let next2 := if 0 < s.buf.markRemainder
    then next.write (s.buf.data.drop s.buf.mark) else next
  let cur := if 0 < s.buf.markRemainder
    then s.buf.clear s.buf.mark else s.buf
  { buf := next2, fifo := s.fifo ++ [cur], pool := s.pool,
    prevBytes := s.prevBytes + cur.put, writeOnly := true }

/-- `marked_fifo_streambuf::xsputn` (marked_iostream.hpp:168-179): result is
(returned count, whether the oversized-message error was logged, new state).
The entry `setWriteOnly()` registers the endpoint as a writer. -/
def xsputn (Cp : ℕ) (s : SinkSt) (src : List ℕ) : ℕ × Bool × SinkSt :=
  let s0 : SinkSt := {s with writeOnly := true}
  if s0.buf.premainder < src.length then
    if 0 < s0.buf.mark ∧ src.length ≤ s0.buf.cap then
      let s1 := overflow Cp s0
      (s1.buf.writeCount src, false, {s1 with buf := s1.buf.write src})
    else
      (s0.buf.writeCount src, true, {s0 with buf := s0.buf.write src})
  else
    (s0.buf.writeCount src, false, {s0 with buf := s0.buf.write src})

/-- `marked_fifo_streambuf::setMark` (marked_iostream.hpp:49-56); its
`assert(_writeOnly)` is the precondition under which callers reach it. -/
def sinkSetMark (Cp : ℕ) (flush : Bool) (s : SinkSt) : ℕ × SinkSt :=
  let d := s.buf.put - s.buf.mark
  let s1 : SinkSt := {s with buf := {s.buf with mark := s.buf.put}}
  if flush ∨ s1.buf.premainder ≤ d then (d, overflow Cp s1) else (d, s1)

/-- Write side of `marked_fifo_streambuf::sync` (marked_iostream.hpp:129-136):
a write-only endpoint performs `setMark(true)`. -/
def sync (Cp : ℕ) (s : SinkSt) : SinkSt :=
  if s.writeOnly then (sinkSetMark Cp true s).2 else s

/-- What endpoint destruction leaves behind. -/
structure CloseResult where
  fifo : List Buffer
  pool : List Buffer
  prevBytes : ℕ
  deregisteredWriter : Bool
deriving DecidableEq, Repr

/-- Write side of `~marked_fifo_streambuf` (marked_iostream.hpp:31-47):
`sync()`, deregister as writer when `_writeOnly`, return `_buf` to the pool. -/
def close (Cp : ℕ) (s : SinkSt) : CloseResult :=
  let s1 := sync Cp s
  ⟨s1.fifo, putBuffer s1.pool s1.buf, s1.prevBytes, s1.writeOnly⟩

/-- The sink states reachable through the public sink operations: writes
(`xsputn`) and marks (`setMark`, of which `flush()` is the `flush = true`
case); `setMark` requires `_writeOnly` per its assertion. -/
inductive Reach (Cp : ℕ) : SinkSt → Prop where
  | start : Reach Cp (initSink Cp)
  | write (src : List ℕ) {s : SinkSt} (h : Reach Cp s) :
      Reach Cp (xsputn Cp s src).2.2
  | mark (flush : Bool) {s : SinkSt} (h : Reach Cp s)
      (hw : s.writeOnly = true) : Reach Cp (sinkSetMark Cp flush s).2

/-- Invariant of reachable sink states: the in-flight buffer has capacity
`Cp`, an untouched read cursor, committed prefix within the written bytes,
written bytes within capacity, a mark strictly below capacity, and every
buffer already pushed to the FIFO was complete at its mark. -/
def SinkInv (Cp : ℕ) (s : SinkSt) : Prop :=
  s.buf.cap = Cp ∧ s.buf.getp = 0 ∧ s.buf.mark ≤ s.buf.put ∧
  s.buf.put ≤ Cp ∧ s.buf.mark < Cp ∧ ∀ b ∈ s.fifo, b.mark = b.put

/-- State of a read endpoint (`marked_fifo_streambuf` used as a source): the
in-flight buffer, the FIFO contents still to be popped (oldest first), the
pool contents, and `_prevBytes`. -/
structure SourceSt where
  buf : Buffer
  fifo : List Buffer
  pool : List Buffer
  prevBytes : ℕ
deriving DecidableEq, Repr

/-- `marked_fifo_streambuf::underflow` (marked_iostream.hpp:147-162): a pop
from the FIFO succeeds exactly when a buffer is available; on success the old
buffer's size accrues to `_prevBytes`, the old buffer goes back to the pool
via `putBuffer`, and the popped buffer is adopted; on failure the exhausted
buffer stays active. The first component is `none` for `EOF`, otherwise the
byte at the read cursor. -/
def underflow (s : SourceSt) : Option ℕ × SourceSt :=
  match s.fifo with
  | [] =>
    (if s.buf.gremainder = 0 then none else some (s.buf.data.getD s.buf.getp 0), s)
  | b :: rest =>
    let s' : SourceSt := ⟨b, rest, putBuffer s.pool s.buf, s.prevBytes + s.buf.put⟩
    (if b.gremainder = 0 then none else some (b.data.getD b.getp 0), s')

/-- Characterization of `overflow` on a well-formed sink buffer: the pushed
buffer is the current one truncated at its mark, the adopted buffer holds
exactly the uncommitted tail, and `_prevBytes` grows by the committed length. -/
theorem overflow_spec (Cp : ℕ) (s : SinkSt)
    (hcap : s.buf.cap = Cp) (hg : s.buf.getp = 0)
    (hm : s.buf.mark ≤ s.buf.put) (hp : s.buf.put ≤ Cp) :
    overflow Cp s =
      { buf := ⟨Cp, s.buf.data.drop s.buf.mark, 0, 0⟩,
        fifo := s.fifo ++ [⟨Cp, s.buf.data.take s.buf.mark, 0, s.buf.mark⟩],
        pool := s.pool,
        prevBytes := s.prevBytes + s.buf.mark,
        writeOnly := true } := by
  obtain ⟨⟨cap, data, gp, mk⟩, fifo, pool, pb, w⟩ := s
  dsimp only [Buffer.put] at hcap hg hm hp
  subst hcap hg
  by_cases h : 0 < data.length - mk
  · have htake : (data.drop mk).take (cap - 0) = data.drop mk :=
      List.take_of_length_le (by simp only [List.length_drop]; omega)
    simp [overflow, Buffer.markRemainder, Buffer.put, Buffer.write, Buffer.clear,
      Buffer.premainder, freshBuffer, h, htake, List.length_take, Nat.min_eq_left hm]
    omega
  · have hmk : mk = data.length := by omega
    subst hmk
    simp [overflow, Buffer.markRemainder, Buffer.put, Buffer.write, Buffer.clear,
      Buffer.premainder, freshBuffer, h, List.drop_length, List.take_length]

/-- Every reachable sink state satisfies `SinkInv`. -/
theorem reach_sinkInv (Cp : ℕ) (hC : 0 < Cp) {s : SinkSt} (h : Reach Cp s) :
    SinkInv Cp s := by
  induction h with
  | start =>
    refine ⟨rfl, rfl, ?_, ?_, hC, ?_⟩ <;> simp [initSink, freshBuffer, Buffer.put]
  | @write src t h ih =>
    obtain ⟨⟨bc, bd, bg, bm⟩, tf, tp, tpb, tw⟩ := t
    obtain ⟨hcap, hg, hm, hp, hmlt, hfifo⟩ := ih
    dsimp only [Buffer.put] at hcap hg hm hp hmlt
    subst hcap hg
    unfold xsputn
    dsimp only
    split_ifs with h1 h2
    · rw [overflow_spec bc ⟨⟨bc, bd, 0, bm⟩, tf, tp, tpb, true⟩ rfl rfl
        (by dsimp only [Buffer.put]; exact hm) (by dsimp only [Buffer.put]; exact hp)]
      dsimp only
      refine ⟨rfl, rfl, ?_, ?_, hC, ?_⟩
      · simp [Buffer.write, Buffer.put]
      · simp only [Buffer.write, Buffer.put, Buffer.premainder, List.length_append,
          List.length_take, List.length_drop]
        omega
      · intro b hb
        rcases List.mem_append.mp hb with hb | hb
        · exact hfifo b hb
        · simp only [List.mem_singleton] at hb
          subst hb
          simp only [Buffer.put, List.length_take]
          omega
    · refine ⟨rfl, rfl, ?_, ?_, hmlt, hfifo⟩
      · simp only [Buffer.write, Buffer.put, List.length_append]
        omega
      · simp only [Buffer.write, Buffer.put, Buffer.premainder, List.length_append,
          List.length_take]
        omega
    · refine ⟨rfl, rfl, ?_, ?_, hmlt, hfifo⟩
      · simp only [Buffer.write, Buffer.put, List.length_append]
        omega
      · simp only [Buffer.write, Buffer.put, Buffer.premainder, List.length_append,
          List.length_take]
        omega
  | @mark flush t h hw ih =>
    obtain ⟨⟨bc, bd, bg, bm⟩, tf, tp, tpb, tw⟩ := t
    obtain ⟨hcap, hg, hm, hp, hmlt, hfifo⟩ := ih
    dsimp only [Buffer.put] at hcap hg hm hp hmlt
    subst hcap hg
    unfold sinkSetMark
    dsimp only [Buffer.put]
    split_ifs with h1
    · rw [overflow_spec bc ⟨⟨bc, bd, 0, bd.length⟩, tf, tp, tpb, tw⟩ rfl rfl
        (by dsimp only [Buffer.put]; exact le_refl _) (by dsimp only [Buffer.put]; exact hp)]
      dsimp only
      refine ⟨rfl, rfl, ?_, ?_, hC, ?_⟩
      · simp [Buffer.put]
      · simp only [Buffer.put, List.length_drop]
        omega
      · intro b hb
        rcases List.mem_append.mp hb with hb | hb
        · exact hfifo b hb
        · simp only [List.mem_singleton] at hb
          subst hb
          simp [Buffer.put, List.length_take]
    · dsimp only
      refine ⟨rfl, rfl, le_refl _, hp, ?_, hfifo⟩
      simp only [not_or, not_le, Buffer.premainder, Buffer.put] at h1
      dsimp only [Buffer.put]
      omega

end Marked

/-! ## Claims -/

/-- C1: on every sink state reachable through the sink operations, every
buffer already pushed into the FIFO has its put cursor equal to its mark
(only committed regions were handed off), and `overflow` copies the
uncommitted tail `[mark, put)` verbatim into the fresh in-flight buffer while
pushing the old buffer truncated at its mark, so no logical region is ever
split across two FIFO entries. -/
theorem c1_no_region_split (Cp : ℕ) (hC : 0 < Cp) (s : Marked.SinkSt)
    (h : Marked.Reach Cp s) :
    (∀ b ∈ s.fifo, b.mark = b.put) ∧
    (Marked.overflow Cp s).buf.data = s.buf.data.drop s.buf.mark ∧
    (Marked.overflow Cp s).fifo =
      s.fifo ++ [⟨Cp, s.buf.data.take s.buf.mark, 0, s.buf.mark⟩] ∧
    (∀ b ∈ (Marked.overflow Cp s).fifo, b.mark = b.put) := by
  obtain ⟨hcap, hg, hm, hp, hmlt, hfifo⟩ := Marked.reach_sinkInv Cp hC h
  rw [Marked.overflow_spec Cp s hcap hg hm hp]
  dsimp only [Marked.Buffer.put] at hm hp
  refine ⟨hfifo, rfl, rfl, ?_⟩
  intro b hb
  rcases List.mem_append.mp hb with hb | hb
  · exact hfifo b hb
  · simp only [List.mem_singleton] at hb
    subst hb
    simp only [Marked.Buffer.put, List.length_take]
    omega

/-- Witness for C1 at the concrete sink that wrote the bytes `[1, 2]` into a
capacity-4 buffer without marking: the push transfers the (empty) committed
prefix and the uncommitted tail `[1, 2]` moves verbatim into the fresh
buffer. -/
theorem c1_witness :
    (Marked.overflow 4 (Marked.xsputn 4 (Marked.initSink 4) [1, 2]).2.2).fifo
        = [⟨4, [], 0, 0⟩] ∧
    (Marked.overflow 4 (Marked.xsputn 4 (Marked.initSink 4) [1, 2]).2.2).buf.data
        = [1, 2] := by
  have h := c1_no_region_split 4 (by decide) _
    (Marked.Reach.write [1, 2] Marked.Reach.start)
  constructor
  · rw [h.2.2.1]; decide
  · rw [h.2.1]; decide

/-- C2 (code bug): a write of 8 bytes into a fresh capacity-4 sink buffer
with no committed region logs the oversized-message error and pushes nothing,
but — contrary to the claim that the buffer state is preserved — it still
calls `Buffer::write`, which appends the first `premainder = 4` bytes of the
message and returns 4 (violating that function's own `assert(len == _len)`,
Buffer.hpp:83). -/
theorem c2_oversized_write_bug :
    Marked.xsputn 4 (Marked.initSink 4) [1, 2, 3, 4, 5, 6, 7, 8] =
      (4, true, ⟨⟨4, [1, 2, 3, 4], 0, 0⟩, [], [], 0, true⟩) := by
  decide

/-- C3 (counterexample): a capacity-4 sink writes `[1]`, marks (committing
`[1]`), then writes `[9]` past the mark and is closed. The claim says the
byte 9 written after the last mark is abandoned and never delivered into the
FIFO; in fact close delivers a buffer containing `[1, 9]`, not just the
committed prefix `[1]`. -/
theorem c3_counterexample :
    (Marked.close 4 (Marked.xsputn 4
        (Marked.sinkSetMark 4 false
          (Marked.xsputn 4 (Marked.initSink 4) [1]).2.2).2 [9]).2.2).fifo =
      [⟨4, [1, 9], 0, 2⟩] ∧ ([1, 9] : List ℕ) ≠ [1] := by
  constructor
  · decide
  · decide

/-- C3 (amended): closing a write endpoint first sets a final mark at the
current put cursor — thereby committing any bytes written after the last
user mark — and flushes the entire buffer content into the FIFO; the fresh
in-flight buffer is then returned (cleared) to the pool and the endpoint
deregisters as a writer. -/
theorem c3_close_commits_tail (Cp : ℕ) (hC : 0 < Cp) (s : Marked.SinkSt)
    (h : Marked.Reach Cp s) (hw : s.writeOnly = true) :
    Marked.close Cp s =
      ⟨s.fifo ++ [⟨Cp, s.buf.data, 0, s.buf.put⟩],
       s.pool ++ [Marked.freshBuffer Cp],
       s.prevBytes + s.buf.put, true⟩ := by
  obtain ⟨hcap, hg, hm, hp, hmlt, hfifo⟩ := Marked.reach_sinkInv Cp hC h
  obtain ⟨⟨bc, bd, bg, bm⟩, sf, sp, spb, sw⟩ := s
  dsimp only [Marked.Buffer.put] at hcap hg hm hp hmlt hw ⊢
  subst hcap hg hw
  unfold Marked.close Marked.sync
  rw [if_pos rfl]
  unfold Marked.sinkSetMark
  dsimp only [Marked.Buffer.put]
  rw [if_pos (Or.inl rfl)]
  rw [Marked.overflow_spec bc ⟨⟨bc, bd, 0, bd.length⟩, sf, sp, spb, true⟩ rfl rfl
    (le_refl _) (by dsimp only [Marked.Buffer.put]; exact hp)]
  dsimp only [Marked.putBuffer, Marked.Buffer.clear, Marked.freshBuffer]
  simp [List.take_length, List.drop_length]

/-- Witness for C3's amended theorem: the sink of the counterexample run. -/
theorem c3_witness :
    Marked.close 4 (Marked.xsputn 4
        (Marked.sinkSetMark 4 false
          (Marked.xsputn 4 (Marked.initSink 4) [1]).2.2).2 [9]).2.2 =
      ⟨[⟨4, [1, 9], 0, 2⟩], [⟨4, [], 0, 0⟩], 2, true⟩ := by
  have h := c3_close_commits_tail 4 (by decide) _
    (Marked.Reach.write [9]
      (Marked.Reach.mark false (Marked.Reach.write [1] Marked.Reach.start)
        (by decide)))
    (by decide)
  rw [h]
  decide

/-- C7: on every reachable write-only sink state with no bytes written since
the previous mark (`put = mark`), `setMark(false)` returns 0 and triggers no
overflow: nothing is pushed into the FIFO and the whole endpoint state — in
particular the in-flight buffer, whose mark update is the identity — is
unchanged. -/
theorem c7_mark_no_bytes (Cp : ℕ) (hC : 0 < Cp) (s : Marked.SinkSt)
    (h : Marked.Reach Cp s) (hw : s.writeOnly = true)
    (hpm : s.buf.put = s.buf.mark) :
    Marked.sinkSetMark Cp false s = (0, s) := by
  obtain ⟨hcap, hg, hm, hp, hmlt, hfifo⟩ := Marked.reach_sinkInv Cp hC h
  obtain ⟨⟨bc, bd, bg, bm⟩, sf, sp, spb, sw⟩ := s
  dsimp only [Marked.Buffer.put] at hcap hg hm hp hmlt hpm
  subst hcap hg
  unfold Marked.sinkSetMark
  dsimp only [Marked.Buffer.put, Marked.Buffer.premainder]
  rw [if_neg]
  · rw [hpm]
    simp
  · simp only [Bool.false_eq_true, false_or, not_le]
    omega

/-- Witness for C7: after writing `[1]` and marking, a second mark on the
capacity-4 sink is a no-op returning 0. -/
theorem c7_witness :
    Marked.sinkSetMark 4 false
        (Marked.sinkSetMark 4 false
          (Marked.xsputn 4 (Marked.initSink 4) [1]).2.2).2 =
      (0, (Marked.sinkSetMark 4 false
          (Marked.xsputn 4 (Marked.initSink 4) [1]).2.2).2) :=
  c7_mark_no_bytes 4 (by decide) _
    (Marked.Reach.mark false (Marked.Reach.write [1] Marked.Reach.start)
      (by decide))
    (by decide) (by decide)

/-- C4 (counterexample): `pbump(-5)` on the valid buffer
`get = 0, put = 10, mark = 8, cap = 16` passes the code's only runtime check
(`pvalidate`, which tests just `0 ≤ put ≤ capacity`) and completes, yet
leaves `put = 5 < mark = 8`, violating the claimed invariant `mark ≤ put`. -/
theorem c4_counterexample :
    Buffer.Invariant ⟨0, 10, 8, 16⟩ ∧
    Buffer.pbump ⟨0, 10, 8, 16⟩ (-5) = some ⟨0, 5, 8, 16⟩ ∧
    ¬ Buffer.Invariant ⟨0, 5, 8, 16⟩ := by
  refine ⟨by decide, by decide, by decide⟩

/-- C4 (amended): starting from a buffer satisfying the cursor invariant
`0 ≤ get ≤ put ≤ capacity ∧ 0 ≤ mark ≤ put`, the invariant is preserved by
`write` (positive length), `read` (non-negative length), `setMark`, `clear`
(with `0 ≤ newMark ≤ put`; the code checks only `newMark ≤ put`), `resize`,
`gbump` (whenever its `gvalidate` check lets it complete), and `swap`;
`pbump`, however, preserves it only under the additional precondition that
the new put cursor stays at or above both `get` and `mark`, because its
`pvalidate` check enforces just `0 ≤ put ≤ capacity`. -/
theorem c4_buffer_ops_invariant (b : Buffer) (hb : b.Invariant) :
    (∀ len : ℤ, 0 < len → (b.write len).Invariant) ∧
    (∀ len : ℤ, 0 ≤ len → (b.read len).Invariant) ∧
    b.setMark.2.Invariant ∧
    (∀ m : ℤ, 0 ≤ m → m ≤ b.putp → (b.clear m).Invariant) ∧
    (∀ n : ℤ, (b.resize n).Invariant) ∧
    (∀ k b', b.gbump k = some b' → b'.Invariant) ∧
    (∀ k b', b.pbump k = some b' → b.getp ≤ b.putp + k → b.mark ≤ b.putp + k →
      b'.Invariant) ∧
    (∀ c : Buffer, c.Invariant → (b.swap c).1.Invariant ∧ (b.swap c).2.Invariant) := by
  obtain ⟨c, p, m, cap⟩ := b
  obtain ⟨h1, h2, h3, h4, h5⟩ := hb
  dsimp only at h1 h2 h3 h4 h5
  refine ⟨?_, ?_, ?_, ?_, ?_, ?_, ?_, ?_⟩
  · intro len hlen
    unfold Buffer.write Buffer.premainder Buffer.Invariant
    dsimp only
    omega
  · intro len hlen
    unfold Buffer.read Buffer.gremainder Buffer.Invariant
    dsimp only
    omega
  · unfold Buffer.setMark Buffer.Invariant
    dsimp only
    omega
  · intro mk hmk0 hmkp
    unfold Buffer.clear Buffer.Invariant
    dsimp only
    dsimp only at hmkp
    omega
  · intro n
    unfold Buffer.resize
    split_ifs with ha hb'
    · exact ⟨h1, h2, h3, h4, h5⟩
    · exact ⟨h1, h2, h3, h4, h5⟩
    · push_neg at hb'
      dsimp only at hb'
      unfold Buffer.Invariant
      dsimp only
      omega
  · intro k b' hk
    unfold Buffer.gbump at hk
    dsimp only at hk
    split at hk
    · rename_i hval
      simp only [Buffer.gvalidate, Bool.and_eq_true, decide_eq_true_eq] at hval
      injection hk with hk
      subst hk
      unfold Buffer.Invariant
      dsimp only
      omega
    · exact absurd hk (by simp)
  · intro k b' hk hge hma
    unfold Buffer.pbump at hk
    dsimp only at hk
    split at hk
    · rename_i hval
      simp only [Buffer.pvalidate, Bool.and_eq_true, decide_eq_true_eq] at hval
      injection hk with hk
      subst hk
      unfold Buffer.Invariant
      dsimp only
      dsimp only at hge hma
      omega
    · exact absurd hk (by simp)
  · intro d hd
    exact ⟨hd, h1, h2, h3, h4, h5⟩

/-- Witness for C4's amended theorem at the buffer
`get = 0, put = 3, mark = 2, cap = 8`: `setMark` keeps the invariant. -/
theorem c4_witness :
    Buffer.Invariant ⟨0, 3, 2, 8⟩ ∧
    (Buffer.setMark ⟨0, 3, 2, 8⟩).2.Invariant :=
  ⟨by decide, (c4_buffer_ops_invariant ⟨0, 3, 2, 8⟩ (by decide)).2.2.1⟩

/-- C5 (code bug): on a fresh `BufferFifo`, one `registerReader()` call makes
`getActiveReaderCount()` return −1 rather than 1, because `registerReader`
increments `_closedReaders` and `deregisterReader` increments `_totalReaders`
— the two counters are swapped. The writer side is wired correctly. -/
theorem c5_register_reader_bug :
    (Census.registerReader Census.start).getActiveReaderCount = -1 ∧
    (Census.registerWriter Census.start).getActiveWriterCount = 1 := by
  decide

/-- C6 (counterexample): at a FIFO state with `isEOF` set, 8 outstanding
buffers and an initial pool capacity of 4, `getWaitForBuffer()` returns 0,
whereas the claim ("… whenever outstanding > initialPoolCapacity") demands
`10·8³/4³ = 80` microseconds: the claim omits the `!_isEOF` condition. -/
theorem c6_counterexample :
    (FifoWait.getWaitForBuffer ⟨true, 8, 0, 4, 4⟩).1 = 0 ∧
    Int.tdiv (10 * (8 : ℤ) ^ 3) ((4 : ℤ) ^ 3) = 80 ∧ (0 : ℤ) ≠ 80 := by
  refine ⟨?_, by decide, by decide⟩
  simp [FifoWait.getWaitForBuffer]

/-- C6 (amended): `getWaitForBuffer()` returns `(10·outstanding³)/capacity³`
truncated toward zero (the `double` quotient assigned to `long`) microseconds,
with capacity = initialPoolCapacity, whenever the FIFO is not at EOF and
`outstanding > initialPoolCapacity`, and 0 in every other state. -/
theorem c6_wait_formula (f : FifoWait) :
    (f.isEOF = false → f.getOutstanding > f.initialPoolCapacity →
      f.getWaitForBuffer.1 =
        Int.tdiv (10 * f.getOutstanding ^ 3) (f.initialPoolCapacity ^ 3)) ∧
    (f.isEOF = true ∨ f.getOutstanding ≤ f.initialPoolCapacity →
      f.getWaitForBuffer.1 = 0) := by
  unfold FifoWait.getWaitForBuffer
  split_ifs with h h2
  · refine ⟨fun _ _ => rfl, fun hc => ?_⟩
    rcases hc with hc | hc
    · rw [hc] at h
      simp at h
    · exact absurd h.2 (by omega)
  · refine ⟨fun _ _ => rfl, fun hc => ?_⟩
    rcases hc with hc | hc
    · rw [hc] at h
      simp at h
    · exact absurd h.2 (by omega)
  · refine ⟨fun he ho => ?_, fun _ => rfl⟩
    exact absurd ⟨he, ho⟩ h

/-- Witness for C6's amended theorem: not at EOF, 5 outstanding over a pool
capacity of 4 gives `⌊10·5³/4³⌋ = ⌊19.53125⌋ = 19` microseconds. -/
theorem c6_witness :
    (FifoWait.getWaitForBuffer ⟨false, 5, 0, 4, 4⟩).1 = 19 := by
  rw [(c6_wait_formula ⟨false, 5, 0, 4, 4⟩).1 rfl (by decide)]
  decide

/-- C8 (counterexample): on a buffer with capacity 8 and filled length
`put = 5`, `resize(5)` — a new capacity equal to (hence at least) the filled
length — is refused and the capacity stays 8, because the code tests
`plen >= newsize` and therefore requires the new capacity to exceed `put`
strictly. -/
theorem c8_counterexample :
    (⟨8, [1, 2, 3, 4, 5], 0, 0⟩ : Marked.Buffer).put ≤ 5 ∧
    Marked.Buffer.resize ⟨8, [1, 2, 3, 4, 5], 0, 0⟩ 5 = ⟨8, [1, 2, 3, 4, 5], 0, 0⟩ ∧
    (⟨8, [1, 2, 3, 4, 5], 0, 0⟩ : Marked.Buffer).cap ≠ 5 := by
  refine ⟨by decide, by decide, by decide⟩

/-- C8 (amended): `resize(newCap)` changes the capacity to `newCap` while
preserving the bytes in `[0, put)` and the `get`, `put` and `mark` offsets
whenever `newCap` strictly exceeds the filled length `put` (or already equals
the capacity); for `newCap ≤ put` with `newCap ≠ capacity` the resize is
refused and the buffer is unchanged. -/
theorem c8_resize (b : Marked.Buffer) (n : ℕ) (hg : b.getp ≤ b.put) :
    ((b.put < n ∨ n = b.cap) →
      (b.resize n).cap = n ∧ (b.resize n).data = b.data ∧
      (b.resize n).getp = b.getp ∧ (b.resize n).mark = b.mark) ∧
    (n ≤ b.put ∧ n ≠ b.cap → b.resize n = b) := by
  obtain ⟨bc, bd, bg, bm⟩ := b
  dsimp only [Marked.Buffer.put] at hg ⊢
  unfold Marked.Buffer.resize
  dsimp only [Marked.Buffer.put]
  split_ifs with h1 h2
  · subst h1
    exact ⟨fun _ => ⟨rfl, rfl, rfl, rfl⟩, fun hc => absurd rfl hc.2⟩
  · refine ⟨fun hc => ?_, fun _ => rfl⟩
    rcases hc with hc | hc
    · rcases h2 with h2 | h2 <;> omega
    · exact absurd hc h1
  · push_neg at h2
    exact ⟨fun _ => ⟨rfl, rfl, rfl, rfl⟩, fun hc => by omega⟩

/-- Witness for C8's amended theorem: growing a capacity-8 buffer holding
three bytes to capacity 16 keeps contents and offsets. -/
theorem c8_witness :
    (Marked.Buffer.resize ⟨8, [1, 2, 3], 0, 2⟩ 16).cap = 16 ∧
    (Marked.Buffer.resize ⟨8, [1, 2, 3], 0, 2⟩ 16).data = [1, 2, 3] ∧
    (Marked.Buffer.resize ⟨8, [1, 2, 3], 0, 2⟩ 16).getp = 0 ∧
    (Marked.Buffer.resize ⟨8, [1, 2, 3], 0, 2⟩ 16).mark = 2 :=
  (c8_resize ⟨8, [1, 2, 3], 0, 2⟩ 16 (by decide)).1 (Or.inl (by decide))

/-- C9 (counterexample): with the pool's `bufferSize` already at 100, the two
calls `setBufferSize(10)` then `setBufferSize(20)` leave `bufferSize = 100`,
not `max(10, 20) = 20` as the claim's consequence states. -/
theorem c9_counterexample :
    BufferPool.setBufferSize (BufferPool.setBufferSize 100 10) 20 = 100 ∧
    (100 : ℤ) ≠ max 10 20 := by
  refine ⟨by decide, by decide⟩

/-- C9 (amended): `BufferPool::setBufferSize(n)` leaves the pool's
`bufferSize` at `max(previous, n)`, so it is monotonic non-decreasing, two
calls with `N` and `M` commute, and they leave `bufferSize = max(N, M)`
whenever the starting size does not exceed that maximum;
`BufferFifo::setBufferSize` first rounds its argument up to the next multiple
of 64 before applying the pool update. -/
theorem c9_setBufferSize (s n N M ib : ℤ) :
    BufferPool.setBufferSize s n = max s n ∧
    BufferPool.setBufferSize (BufferPool.setBufferSize s N) M =
      BufferPool.setBufferSize (BufferPool.setBufferSize s M) N ∧
    (s ≤ max N M →
      BufferPool.setBufferSize (BufferPool.setBufferSize s N) M = max N M) ∧
    (BufferFifo.setBufferSize ib s n).2 =
      max s (BufferFifo.roundUp64 n) ∧
    BufferFifo.roundUp64 n % 64 = 0 ∧
    n ≤ BufferFifo.roundUp64 n ∧ BufferFifo.roundUp64 n < n + 64 := by
  unfold BufferFifo.setBufferSize BufferFifo.roundUp64 BufferPool.setBufferSize
  dsimp only
  refine ⟨?_, ?_, ?_, ?_, ?_, ?_, ?_⟩ <;> omega

/-- Witness for C9's amended theorem: from size 10, the calls with 20 and 30
end at `max(20, 30) = 30`. -/
theorem c9_witness :
    BufferPool.setBufferSize (BufferPool.setBufferSize 10 20) 30 = max 20 30 :=
  (c9_setBufferSize 10 0 20 30 0).2.2.1 (by decide)

/-- C10: when a source's in-flight buffer is exhausted (`get = put`), a failed
`underflow` pop reports EOF and leaves the endpoint state untouched — the same
in-flight buffer stays active, `_prevBytes` does not advance, and nothing is
returned to the pool — so a later successful pop proceeds normally; a
successful pop accrues the old buffer's size to `_prevBytes`, returns the old
buffer (cleared) to the pool, and adopts the popped buffer. -/
theorem c10_underflow (s : Marked.SourceSt) (hg : s.buf.getp = s.buf.put) :
    (s.fifo = [] → Marked.underflow s = (none, s)) ∧
    (∀ b rest, s.fifo = b :: rest →
      (Marked.underflow s).2 =
        ⟨b, rest, s.pool ++ [s.buf.clear 0], s.prevBytes + s.buf.put⟩) := by
  obtain ⟨sb, sf, sp, spb⟩ := s
  dsimp only [Marked.Buffer.put] at hg ⊢
  constructor
  · intro hf
    subst hf
    unfold Marked.underflow
    dsimp only
    rw [if_pos]
    unfold Marked.Buffer.gremainder Marked.Buffer.put
    omega
  · intro b rest hf
    subst hf
    unfold Marked.underflow Marked.putBuffer
    rfl

/-- Witness for C10 in both directions: an exhausted source over an empty
FIFO gets EOF with nothing changed, and over a one-entry FIFO it swaps
buffers, accrues `_prevBytes` and recycles the old buffer. -/
theorem c10_witness :
    Marked.underflow ⟨⟨4, [1, 2], 2, 0⟩, [], [], 7⟩ =
      (none, ⟨⟨4, [1, 2], 2, 0⟩, [], [], 7⟩) ∧
    (Marked.underflow ⟨⟨4, [1, 2], 2, 0⟩, [⟨4, [9], 0, 1⟩], [], 7⟩).2 =
      ⟨⟨4, [9], 0, 1⟩, [], [⟨4, [], 0, 0⟩], 9⟩ := by
  constructor
  · exact (c10_underflow ⟨⟨4, [1, 2], 2, 0⟩, [], [], 7⟩ (by decide)).1 rfl
  · have h := (c10_underflow ⟨⟨4, [1, 2], 2, 0⟩, [⟨4, [9], 0, 1⟩], [], 7⟩
      (by decide)).2 ⟨4, [9], 0, 1⟩ [] rfl
    rw [h]
    decide

end ParallelStreams
